import Mathlib

/-!
# Face-recognition attendance kiosk — shallow embedding

A shallow embedding of the matching pipeline and attendance state machine of
the Face-recognition-attendance repository, together with theorems settling
the specification claims.

Modelling conventions:
* JavaScript numbers are modelled as exact rationals (`ℚ`); timestamps
  (milliseconds since epoch, as produced by Date.getTime) as `Int`.
* `Math.sqrt` has no rational counterpart, so Euclidean distances are carried
  *squared*: `euclideanSq` is exactly the accumulator `s` of
  faceEmbed.ts/euclidean before the final Math.sqrt.  Since √ is strictly
  monotone on [0, ∞), every comparison the source performs on distances
  (strict minimum tracking, `d <= 0.6`) is performed here on the squared
  values against the squared threshold (0.36 = 9/25).  A user-facing
  similarity `max(0, 1 − √dSq)` is represented by the datum `dSq` it is
  computed from (`SimVal.fromDistSq dSq`); `SimVal.zeroNoCandidate` is the
  literal 0 the source reports when no candidate descriptor was obtained
  (`bestDist === Infinity`).
* Asynchronous external calls (PocketBase reads/writes, the face-api
  descriptor oracle, image fetches) are modelled by an `Env` record of their
  outcomes; a call that can throw is an `Option`/`Bool` field (`none`/`true`
  = it threw).  `markAttendance` returns `Except Fault _` — `.error` models a
  thrown exception escaping the function — together with the list of
  attendance events written to the store (`logAttendance` calls).
* "HH:mm" shift strings are modelled already parsed as an `(hour, minute)`
  pair; `toTodayDate` (which combines them with today's date via
  Date.setHours) becomes `toTodayMs` over a `dayStart` epoch offset.
-/

set_option linter.unusedVariables false

namespace FaceAttendance

/-! ## Definitions -/

/-- 128-dimensional face-api descriptor, as exact rationals. -/
abbrev Desc := List ℚ

/-- 256-dimensional coarse image signature (sigService.ts). -/
abbrev Sig := List ℚ

inductive CheckType where
  | IN
  | OUT
deriving DecidableEq, Repr

inductive Status where
  | ON_TIME
  | LATE
  | EARLY
deriving DecidableEq, Repr

inductive FailReason where
  | NO_MATCH
  | NO_FACE
  | DAY_COMPLETED
  | TOO_SOON
deriving DecidableEq, Repr

inductive LogResult where
  | SUCCESS
  | NO_MATCH
  | NO_FACE
deriving DecidableEq, Repr

/-- The similarity number the source reports: `fromDistSq d` stands for the
JS value `max(0, 1 − Math.sqrt d)`, `zeroNoCandidate` for the literal `0`
reported when `bestDist === Number.POSITIVE_INFINITY` (no candidate yielded a
descriptor). -/
inductive SimVal where
  | fromDistSq (dSq : ℚ)
  | zeroNoCandidate
deriving DecidableEq, Repr

/-- An enrolled_users record (backendService.ts).  `imageUrl` is the file URL
`pb.files.getUrl` would yield for the record's image, `none` when the record
has no image file.  Shift times are the parsed "HH:mm" strings. -/
structure Enrolled where
  recId : String
  userId : String
  fullName : String
  imageUrl : Option String
  shiftStart : Option (Nat × Nat)
  shiftEnd : Option (Nat × Nat)
  graceMinutes : Option Int
deriving DecidableEq, Repr

/-- A candidate of the in-memory index (faceEmbed.ts, Candidate interface). -/
structure Candidate where
  recId : String
  userId : String
  fullName : String
  imageUrl : String
  sig : Option Sig
deriving DecidableEq, Repr

/-- An attendance_logs record as read back by listLogsForUserOnDate:
the fields markAttendance consults. -/
structure LogRec where
  result : LogResult
  created : Option Int
  eventTime : Option Int
  checkType : Option CheckType
deriving DecidableEq, Repr

/-- The observable content of one `logAttendance` call (an AttendanceEvent
written to the store). -/
structure Emitted where
  result : LogResult
  similarity : Option SimVal
  checkType : Option CheckType
  status : Option Status
  eventTime : Option Int
  userLinked : Bool
deriving DecidableEq, Repr

/-- A MarkAttendanceResponse (types.ts); absent optional fields are `none`. -/
structure Resp where
  ok : Bool
  reason : Option FailReason := none
  user_id : Option String := none
  name : Option String := none
  similarity : Option SimVal := none
  checkType : Option CheckType := none
  status : Option Status := none
  lateMinutes : Option Int := none
deriving DecidableEq, Repr

/-- An exception escaping markAttendance: either the ApiError thrown by the
outer catch block (with its fixed detail string), or a raw store error
re-thrown from outside the try block. -/
inductive Fault where
  | apiError (detail : String)
  | storeError
deriving DecidableEq, Repr

/-- The fixed message of the ApiError thrown by markAttendance's catch. -/
def genericDetail : String := "Face recognition failed. Please try again."

/-- Outcomes of all external calls markAttendance performs, fixed up front:
the embedding of one invocation's environment. -/
structure Env where
  /-- pbListEnrolled() result. -/
  users : List Enrolled
  /-- shortlistByBlob(image, 5) result. -/
  shortlist : List Candidate
  /-- faceDescriptorFromBlob(image): `none` = no detectable face. -/
  liveDesc : Option Desc
  /-- fetch(candidate.imageUrl) + faceDescriptorFromBlob, keyed by image URL;
  `none` = the fetch threw or no face was found (the loop skips it). -/
  descOf : String → Option Desc
  /-- findEnrolledByUserId. -/
  findEnrolled : String → Option Enrolled
  /-- listLogsForUserOnDate(matchedRec.id, now), ordered by created asc;
  `none` = the read threw (swallowed by the inner catch). -/
  todaysLogs : Option (List LogRec)
  /-- new Date().getTime(), ms. -/
  now : Int
  /-- today's 00:00:00.000 kiosk-local, ms (what Date.setHours(h,m,0,0)
  computes from). -/
  dayStart : Int
  /-- whether logAttendance throws. -/
  logFails : Bool

/-- The squared-distance accumulator of faceEmbed.ts/euclidean: the source
then returns `Math.sqrt` of this value (see the header note). -/
def euclideanSq (a b : List ℚ) : ℚ :=
  ((a.zip b).map (fun p => (p.1 - p.2) * (p.1 - p.2))).sum

/-- Squared matching threshold: THRESH = 0.6 on distances, hence 0.36 on
squared distances. -/
def threshSq : ℚ := 9 / 25

/-- One iteration of markAttendance's candidate loop: skip candidates whose
image fetch or descriptor extraction failed, keep the strictly smallest
(squared) distance seen so far (`none` accumulator = bestDist Infinity). -/
def stepBest (live : Desc) (descOf : String → Option Desc)
    (acc : Option (String × ℚ)) (c : Candidate) : Option (String × ℚ) :=
  match descOf c.imageUrl with
  | none => acc
  | some d =>
    let dSq := euclideanSq live d
    match acc with
    | none => some (c.userId, dSq)
    | some (u, b) => if dSq < b then some (c.userId, dSq) else some (u, b)

/-- The candidate loop of markAttendance (apiService.ts lines 126–137):
returns the best userId and its squared distance, `none` if no candidate
yielded a descriptor. -/
def bestCandidate (live : Desc) (descOf : String → Option Desc)
    (candidates : List Candidate) : Option (String × ℚ) :=
  candidates.foldl (stepBest live descOf) none

/-- Date.setHours(h, m, 0, 0) on today's date, in ms. -/
def toTodayMs (dayStart : Int) (hm : Nat × Nat) : Int :=
  dayStart + ((hm.1 : Int) * 60 + (hm.2 : Int)) * 60000

/-- JavaScript Math.round: round half toward +∞. -/
def jsRound (q : ℚ) : Int :=
  ⌊q + 1 / 2⌋

/-- Status determination (apiService.ts lines 191–204): the two sequential
ifs, which are mutually exclusive because they test opposite checkTypes.
Returns (status, lateMinutes). -/
def statusOf (ct : CheckType) (scheduledStart scheduledEnd : Option Int)
    (grace now : Int) : Status × Int :=
  match ct with
  | .IN =>
    match scheduledStart with
    | some st =>
      let latestOnTime := st + grace * 60000
      if now > latestOnTime then
        (.LATE, jsRound (((now - latestOnTime : Int) : ℚ) / 60000))
      else (.ON_TIME, 0)
    | none => (.ON_TIME, 0)
  | .OUT =>
    match scheduledEnd with
    | some en => if now < en then (.EARLY, 0) else (.ON_TIME, 0)
    | none => (.ON_TIME, 0)

/-- The hint-processing block of markAttendance (lines 95–108). -/
def applyHint (env : Env) (hint : Option String)
    (candidates : List Candidate) : List Candidate :=
  match hint with
  | none => candidates
  | some h =>
    match candidates.find? (fun c => c.userId == h) with
    | some forced => [forced]
    | none =>
      match env.findEnrolled h with
      | some rec =>
        match rec.imageUrl with
        | some url => [{ recId := rec.recId, userId := h, fullName := rec.fullName, imageUrl := url, sig := none }]
        | none => candidates
      | none => candidates

/-- The NO_MATCH event written on the two early-exit paths (no enrolled
users / empty candidate list): no similarity is passed. -/
def earlyNoMatchEvent : Emitted :=
  { result := .NO_MATCH, similarity := none, checkType := none,
    status := none, eventTime := none, userLinked := false }

/-- Status and lateMinutes of an emission: statusOf applied to the matched
record's schedule combined with today's date (lines 152–166, 191–204). -/
def schedStatus (env : Env) (rec : Enrolled) (ct : CheckType) : Status × Int :=
  statusOf ct (rec.shiftStart.map (toTodayMs env.dayStart))
    (rec.shiftEnd.map (toTodayMs env.dayStart)) (rec.graceMinutes.getD 0) env.now

/-- Emission of the SUCCESS event plus the success response
(apiService.ts lines 191–229). -/
def emitSuccess (env : Env) (uid : String) (rec : Enrolled) (simv : SimVal)
    (ct : CheckType) : Except Fault (Resp × List Emitted) :=
  let sl := schedStatus env rec ct
  if env.logFails then .error (.apiError genericDetail)
  else
    .ok ({ ok := true, reason := none, user_id := some uid,
           name := some rec.fullName, similarity := some simv,
           checkType := some ct, status := some sl.1,
           lateMinutes := some sl.2 },
         [{ result := .SUCCESS, similarity := some simv,
            checkType := some ct, status := some sl.1,
            eventTime := some env.now, userLinked := true }])

/-- The SUCCESS events among today's logs (the filter on line 175). -/
def successesOf (todays : List LogRec) : List LogRec :=
  todays.filter (fun l => l.result == .SUCCESS)

/-- The IN/OUT decision (line 179): IN iff the count of today's SUCCESS
events is even. -/
def checkTypeOf (todays : List LogRec) : CheckType :=
  if (successesOf todays).length % 2 == 0 then .IN else .OUT

/-- Whether the cooldown guard fires (lines 181–188): there is a prior
SUCCESS today whose time (created ?? eventTime ?? now) is less than
MIN_GAP = 2 minutes before now. -/
def gapBlocked (todays : List LogRec) (now : Int) : Bool :=
  match (successesOf todays).getLast? with
  | some last =>
    decide (now - (((last.created).or last.eventTime).getD now) < 2 * 60 * 1000)
  | none => false

/-- The ledger block of markAttendance (lines 172–229): IN/OUT decision,
day-completed and cooldown guards, status, and the SUCCESS emission.  A
throwing listLogsForUserOnDate read (`todaysLogs = none`) is swallowed by
the source's inner catch: checkType keeps its initial value 'IN' and both
guards are skipped. -/
def ledgerPhase (env : Env) (uid : String) (rec : Enrolled) (simv : SimVal) :
    Except Fault (Resp × List Emitted) :=
  match env.todaysLogs with
  | none => emitSuccess env uid rec simv .IN
  | some todays =>
    let successOnly := successesOf todays
    if successOnly.length ≥ 2 then
      .ok ({ ok := false, reason := some .DAY_COMPLETED, similarity := some simv }, [])
    else
      let ct : CheckType := checkTypeOf todays
      match successOnly.getLast? with
      | some last =>
        let lastTime := ((last.created).or last.eventTime).getD env.now
        if env.now - lastTime < 2 * 60 * 1000 then
          .ok ({ ok := false, reason := some .TOO_SOON, similarity := some simv }, [])
        else emitSuccess env uid rec simv ct
      | none => emitSuccess env uid rec simv ct

/-- The embedding of apiService.ts/markAttendance (lines 84–234). -/
def markAttendance (env : Env) (hint : Option String) :
    Except Fault (Resp × List Emitted) :=
  if env.users.isEmpty then
    -- logAttendance happens outside the try block: a throw propagates raw
    if env.logFails then .error .storeError
    else .ok ({ ok := false, reason := some .NO_MATCH }, [earlyNoMatchEvent])
  else
    let candidates := applyHint env hint env.shortlist
    if candidates.isEmpty then
      if env.logFails then .error .storeError
      else .ok ({ ok := false, reason := some .NO_MATCH }, [earlyNoMatchEvent])
    else
      -- from here on we are inside the try block: throws become the ApiError
      match env.liveDesc with
      | none =>
        if env.logFails then .error (.apiError genericDetail)
        else
          .ok ({ ok := false, reason := some .NO_FACE },
               [{ result := .NO_FACE, similarity := none, checkType := none,
                  status := none, eventTime := none, userLinked := false }])
      | some live =>
        let best := bestCandidate live env.descOf candidates
        let simv : SimVal :=
          match best with
          | none => .zeroNoCandidate
          | some p => .fromDistSq p.2
        let matched : Option (String × Enrolled) :=
          match best with
          | some (uid, dSq) =>
            if dSq ≤ threshSq then (env.findEnrolled uid).map (fun r => (uid, r))
            else none
          | none => none
        match matched with
        | none =>
          if env.logFails then .error (.apiError genericDetail)
          else
            .ok ({ ok := false, reason := some .NO_MATCH, similarity := some simv },
                 [{ result := .NO_MATCH, similarity := some simv, checkType := none,
                    status := none, eventTime := none, userLinked := false }])
        | some (uid, rec) => ledgerPhase env uid rec simv

/-- The identity markAttendance resolves the probe to (matchedRec together
with the winning userId), with the similarity datum: the verdict of the
matching phase. -/
def resolvedIdentity (env : Env) (candidates : List Candidate) :
    Option (String × Enrolled) :=
  match env.liveDesc with
  | none => none
  | some live =>
    match bestCandidate live env.descOf candidates with
    | some (uid, dSq) =>
      if dSq ≤ threshSq then (env.findEnrolled uid).map (fun r => (uid, r))
      else none
    | none => none

/-- The similarity datum markAttendance computes from the candidate loop's
result. -/
def simOfBest : Option (String × ℚ) → SimVal
  | none => .zeroNoCandidate
  | some p => .fromDistSq p.2

/-- Failure reason of a markAttendance outcome (`none` on a thrown fault or
a success response). -/
def reasonOf : Except Fault (Resp × List Emitted) → Option FailReason
  | .ok (r, _) => r.reason
  | .error _ => none

/-- Events an outcome wrote to the store (`[]` on a thrown fault: in the
model the only write is the final one, which throws instead of writing). -/
def eventsOf : Except Fault (Resp × List Emitted) → List Emitted
  | .ok (_, evs) => evs
  | .error _ => []

/-- The (userId, squared distance) pairs of the candidates whose image fetch
and descriptor extraction succeeded, in shortlist order. -/
def pairsOf (live : Desc) (descOf : String → Option Desc)
    (candidates : List Candidate) : List (String × ℚ) :=
  candidates.filterMap
    (fun c => (descOf c.imageUrl).map (fun d => (c.userId, euclideanSq live d)))

/-- Reference selection: the first pair attaining the minimal distance
(keeps the head on ties). -/
def pickBest : List (String × ℚ) → Option (String × ℚ)
  | [] => none
  | p :: rest =>
    match pickBest rest with
    | none => some p
    | some q => if p.2 ≤ q.2 then some p else some q

/-- How an accumulator combines with the best of the remaining list under
the strict-update discipline of stepBest. -/
def mergeAcc : Option (String × ℚ) → Option (String × ℚ) → Option (String × ℚ)
  | none, r => r
  | some a, none => some a
  | some a, some r => if r.2 < a.2 then some r else some a

/-- Environment for the C2 witness: two candidates, the first at squared
distance 1/4 (within threshold), the second at squared distance 4. -/
def envC2w : Env :=
  { users := [{ recId := "ra", userId := "a", fullName := "Alice",
                imageUrl := some "urlA", shiftStart := none, shiftEnd := none,
                graceMinutes := none }],
    shortlist :=
      [{ recId := "ra", userId := "a", fullName := "Alice",
         imageUrl := "urlA", sig := none },
       { recId := "rb", userId := "b", fullName := "Bob",
         imageUrl := "urlB", sig := none }],
    liveDesc := some [0, 0],
    descOf := fun u => if u = "urlA" then some [1/2, 0]
              else if u = "urlB" then some [2, 0] else none,
    findEnrolled := fun u =>
      if u = "a" then
        some { recId := "ra", userId := "a", fullName := "Alice",
               imageUrl := some "urlA", shiftStart := none, shiftEnd := none,
               graceMinutes := none }
      else if u = "b" then
        some { recId := "rb", userId := "b", fullName := "Bob",
               imageUrl := some "urlB", shiftStart := none, shiftEnd := none,
               graceMinutes := none }
      else none,
    todaysLogs := some [], now := 1000000, dayStart := 0, logFails := false }

/-- Concrete environment refuting C1: the enrolled-user list is empty and the
probe yields no extractable descriptor (`liveDesc = none`). -/
def envC1 : Env :=
  { users := [], shortlist := [], liveDesc := none,
    descOf := fun _ => none, findEnrolled := fun _ => none,
    todaysLogs := some [], now := 0, dayStart := 0, logFails := false }

/-- Witness for c1_amended: a nonempty population with a descriptor-less
probe yields NO_FACE. -/
def envC1w : Env :=
  { users := [{ recId := "r1", userId := "u1", fullName := "User One",
                imageUrl := some "url1", shiftStart := none, shiftEnd := none,
                graceMinutes := none }],
    shortlist := [{ recId := "r1", userId := "u1", fullName := "User One",
                    imageUrl := "url1", sig := none }],
    liveDesc := none, descOf := fun _ => none, findEnrolled := fun _ => none,
    todaysLogs := some [], now := 0, dayStart := 0, logFails := false }

/-- Enrolled record used by the C3/C4/C5 witnesses. -/
def recW : Enrolled :=
  { recId := "r1", userId := "u1", fullName := "User One",
    imageUrl := some "url1", shiftStart := some (9, 0), shiftEnd := some (18, 0),
    graceMinutes := some 10 }

/-- Environment builder for the ledger witnesses: today's logs and the clock
vary, the match always resolves to recW at squared distance 0. -/
def envLedger (todays : List LogRec) (now : Int) : Env :=
  { users := [recW],
    shortlist := [{ recId := "r1", userId := "u1", fullName := "User One",
                    imageUrl := "url1", sig := none }],
    liveDesc := some [0, 0],
    descOf := fun u => if u = "url1" then some [0, 0] else none,
    findEnrolled := fun u => if u = "u1" then some recW else none,
    todaysLogs := some todays, now := now, dayStart := 0, logFails := false }

/-- A stored SUCCESS log at time t. -/
def sLog (t : Int) (ct : CheckType) : LogRec :=
  { result := .SUCCESS, created := some t, eventTime := some t,
    checkType := some ct }

/-- How a written event appears when read back by listLogsForUserOnDate:
the store stamps `created` with the insertion time (the step's now). -/
def storedOf (now : Int) (e : Emitted) : LogRec :=
  { result := e.result, created := some now, eventTime := e.eventTime,
    checkType := e.checkType }

/-- Per-identity, per-day ledger states reachable through markAttendance
when the store is read back faithfully: each step runs markAttendance on an
environment whose today's-events read returns exactly the current ledger,
and appends whatever events it writes.  (Unresolved attempts write only
user-less NO_MATCH/NO_FACE events, which a per-user read never returns, so
they leave this per-user ledger unchanged and need no constructor.) -/
inductive ReachDay : List LogRec → Prop where
  | nil : ReachDay []
  | step (logs : List LogRec) (env : Env) (live : Desc) (uid : String)
      (rec : Enrolled)
      (hu : env.users.isEmpty = false) (hs : env.shortlist.isEmpty = false)
      (hdesc : env.liveDesc = some live)
      (hres : resolvedIdentity env env.shortlist = some (uid, rec))
      (hlogs : env.todaysLogs = some logs) (hlog : env.logFails = false)
      (hprev : ReachDay logs) :
      ReachDay (logs ++
        (eventsOf (markAttendance env none)).map (storedOf env.now))

/-- Ledger state after one successful step from the empty day, used by the
C4 witness. -/
def reachedOne : List LogRec :=
  [] ++ (eventsOf (markAttendance (envLedger [] 1000000) none)).map
    (storedOf 1000000)

/-- Status of a markAttendance outcome, for the C5 witness. -/
def statusOfOutcome : Except Fault (Resp × List Emitted) → Option Status
  | .ok (r, _) => r.status
  | .error _ => none

/-- lateMinutes of a markAttendance outcome, for the C5 witness. -/
def lateOfOutcome : Except Fault (Resp × List Emitted) → Option Int
  | .ok (r, _) => r.lateMinutes
  | .error _ => none

/-- ok-flag of a markAttendance outcome (`false` on a thrown fault). -/
def okOf : Except Fault (Resp × List Emitted) → Bool
  | .ok (r, _) => r.ok
  | .error _ => false

/-- Environment in which the today's-events read throws while everything
else succeeds. -/
def envC6a : Env :=
  { envLedger [] 1000000 with todaysLogs := none }

/-- Environment in which, additionally, the event write throws. -/
def envC6b : Env :=
  { envLedger [] 1000000 with todaysLogs := none, logFails := true }

/-- Module state of faceEmbed.ts's candidate index: the cached candidate
list and the in-flight flag. -/
structure IndexState where
  cache : Option (List Candidate)
  building : Bool
deriving DecidableEq, Repr

/-- Entry of buildCandidateIndex (lines 217–219): when a build is in
flight the call returns immediately with `cache || []` (second component
`some result`); otherwise the caller becomes the builder (`none`) with the
building flag set, and proceeds to fetch the records. -/
def buildEnter (s : IndexState) : IndexState × Option (List Candidate) :=
  if s.building then (s, some (s.cache.getD []))
  else ({ s with building := true }, none)

/-- Completion of the in-flight build (lines 221–234): candidates are built
from the fetched records, skipping records without an image; the cache is
replaced and the building flag cleared (finally block). -/
def buildFinish (s : IndexState) (records : List Enrolled) :
    IndexState × List Candidate :=
  let items := records.filterMap (fun r =>
    match r.imageUrl with
    | none => none
    | some url => some { recId := r.recId, userId := r.userId,
                         fullName := r.fullName, imageUrl := url,
                         sig := none })
  ({ cache := some items, building := false }, items)

/-- The initial module state: no cache, no build in flight. -/
def indexState0 : IndexState := { cache := none, building := false }

/-- Dot product of two signatures (sigService.ts/cosineSim): the vectors
are L2-normalized upstream, so the dot product is the cosine similarity
(the source iterates i over a.length; zip truncates identically when the
lengths agree, which they do for 256-dim signatures). -/
def cosineSim (a b : Sig) : ℚ :=
  ((a.zip b).map (fun p => p.1 * p.2)).sum

/-- ensureSigsForAll (faceEmbed.ts lines 239–247): fill every missing
signature from the provider; a throwing provider call (`none`) leaves the
signature unset (the per-candidate catch). -/
def ensureSigs (sigOf : String → Option Sig) (cands : List Candidate) :
    List Candidate :=
  cands.map (fun c =>
    match c.sig with
    | some _ => c
    | none => { c with sig := sigOf c.imageUrl })

/-- A candidate's ranking score (line 255): cosine similarity of its
signature to the probe's, −1 when it has no signature. -/
def scoreOf (querySig : Sig) (c : Candidate) : ℚ :=
  match c.sig with
  | some s => cosineSim querySig s
  | none => -1

/-- The scored candidates sorted by score descending (line 256).  JS
Array.sort with comparator (a,b) ⇒ b.s − a.s is a stable descending sort
(ES2019 requires stability); a stable sort under the total preorder
"score ≥" is modelled by insertion sort under that relation. -/
def rankedOf (querySig : Sig) (sigOf : String → Option Sig)
    (cache : List Candidate) : List (Candidate × ℚ) :=
  List.insertionSort (fun a b : Candidate × ℚ => b.2 ≤ a.2)
    ((ensureSigs sigOf cache).map (fun c => (c, scoreOf querySig c)))

/-- shortlistByBlob (lines 249–258) given the cached population: an empty
cache yields [] (not an error); otherwise ensure all signatures, score,
sort descending, and return the top min(k, n) candidates. -/
def shortlistByBlob (cache : List Candidate) (querySig : Sig)
    (sigOf : String → Option Sig) (k : Nat) : List Candidate :=
  if cache.isEmpty then []
  else
    let sorted := rankedOf querySig sigOf cache
    (sorted.take (min k sorted.length)).map (fun x => x.1)

/-- Candidate with an already-computed signature, for the C8 witness. -/
def candA : Candidate :=
  { recId := "ra", userId := "a", fullName := "A", imageUrl := "ua",
    sig := some [1, 0] }

/-- Candidate whose signature is computed lazily, for the C8 witness. -/
def candB : Candidate :=
  { recId := "rb", userId := "b", fullName := "B", imageUrl := "ub",
    sig := none }

/-- Signature provider for the C8 witness. -/
def sigOfC8 : String → Option Sig :=
  fun u => if u = "ub" then some [0, 1] else none

structure DetState where
  prevSig : Option Sig
  stableCount : Nat
  lastAutoAt : Int
  prevPresence : Bool
  entering : Bool
deriving DecidableEq, Repr

/-- The light-weight contrast metric (lines 239–242): variance
1/n − mean², valid because the signature is L2-normalized. -/
def varianceOf (sig : Sig) : ℚ :=
  1 / (sig.length : ℚ) - (sig.sum / (sig.length : ℚ)) * (sig.sum / (sig.length : ℚ))

/-- Presence: variance at least VAR_MIN = 0.001 (line 243). -/
def hasPresence (sig : Sig) : Bool :=
  decide (varianceOf sig ≥ 0.001)

/-- The entering flag after the false→true presence transition check
(lines 253–256) — only meaningful on a presence frame. -/
def enteringAfter (s : DetState) : Bool :=
  if s.prevPresence then s.entering else true

/-- stableCount after the transition reset (line 255). -/
def count0After (s : DetState) : Nat :=
  if s.prevPresence then s.stableCount else 0

/-- Cosine similarity to the previous signature, 0 when there is none
(lines 258–259). -/
def simOf (s : DetState) (sig : Sig) : ℚ :=
  match s.prevSig with
  | some p => cosineSim p sig
  | none => 0

/-- stableCount after the movement/stability update (lines 260–267):
movement (< MOVE_SIM = 0.985) resets, stability (> STABLE_SIM = 0.998)
increments, anything else resets. -/
def countAfter (s : DetState) (sig : Sig) : Nat :=
  match s.prevSig with
  | some p =>
    if cosineSim p sig < 0.985 then 0
    else if cosineSim p sig > 0.998 then count0After s + 1
    else 0
  | none => 0

/-- Required stable frames (line 270): ENTER_STABLE_FRAMES = 1 while
entering, STABLE_FRAMES = 4 in steady state. -/
def neededOf (s : DetState) : Nat :=
  if enteringAfter s then 1 else 4

/-- The trigger condition of line 271: fast path (entering and similarity
at least FAST_SIM = 0.999) or enough stable frames. -/
def triggerCond (s : DetState) (sig : Sig) : Bool :=
  (enteringAfter s && decide (simOf s sig ≥ 0.999))
    || decide (countAfter s sig ≥ neededOf s)

/-- One pass of the auto-detect tick (lines 228–280).  Returns the next
state and whether a probe capture was triggered (stopWebcam + onCapture).
COOLDOWN_MS = 2500. -/
def tick (s : DetState) (now : Int) (frame : Option Sig) : DetState × Bool :=
  if now - s.lastAutoAt < 2500 then (s, false)
  else
    match frame with
    | none => (s, false)
    | some sig =>
      if hasPresence sig = false then
        ({ prevSig := some sig, stableCount := 0, lastAutoAt := s.lastAutoAt,
           prevPresence := false, entering := false }, false)
      else
        if triggerCond s sig then
          ({ prevSig := some sig, stableCount := countAfter s sig,
             lastAutoAt := now, prevPresence := s.prevPresence,
             entering := enteringAfter s }, true)
        else
          ({ prevSig := some sig, stableCount := countAfter s sig,
             lastAutoAt := s.lastAutoAt, prevPresence := true,
             entering := enteringAfter s }, false)

/-- A run of tick over a list of (now, frame) inputs; the Bool accumulates
whether any trigger fired. -/
def runTicks (s : DetState) (frames : List (Int × Option Sig)) :
    DetState × Bool :=
  frames.foldl (fun acc f =>
    ((tick acc.1 f.1 f.2).1, acc.2 || (tick acc.1 f.1 f.2).2)) (s, false)

/-! ## Theorems -/

lemma foldl_stepBest (live : Desc) (descOf : String → Option Desc) :
    ∀ (l : List Candidate) (acc : Option (String × ℚ)),
      l.foldl (stepBest live descOf) acc
        = mergeAcc acc (pickBest (pairsOf live descOf l))
  | [], acc => by cases acc <;> simp [pairsOf, pickBest, mergeAcc]
  | c :: rest, acc => by
    rw [List.foldl_cons, foldl_stepBest live descOf rest (stepBest live descOf acc c)]
    rcases hd : descOf c.imageUrl with _ | d
    · have h1 : stepBest live descOf acc c = acc := by simp [stepBest, hd]
      have h2 : pairsOf live descOf (c :: rest) = pairsOf live descOf rest := by
        simp [pairsOf, List.filterMap_cons, hd]
      rw [h1, h2]
    · have h2 : pairsOf live descOf (c :: rest)
          = (c.userId, euclideanSq live d) :: pairsOf live descOf rest := by
        simp [pairsOf, List.filterMap_cons, hd]
      rw [h2]
      rcases hp : pickBest (pairsOf live descOf rest) with _ | q
      · cases acc with
        | none => simp [stepBest, hd, pickBest, hp, mergeAcc]
        | some a =>
          rcases a with ⟨u, b⟩
          by_cases h1 : euclideanSq live d < b
          · simp [stepBest, hd, pickBest, hp, mergeAcc, h1]
          · simp [stepBest, hd, pickBest, hp, mergeAcc, h1, not_lt.mp h1]
      · cases acc with
        | none =>
          by_cases h2 : euclideanSq live d ≤ q.2
          · simp [stepBest, hd, pickBest, hp, mergeAcc, h2, not_lt.mpr h2]
          · simp [stepBest, hd, pickBest, hp, mergeAcc, h2, lt_of_not_le h2]
        | some a =>
          rcases a with ⟨u, b⟩
          by_cases h1 : euclideanSq live d < b
          · by_cases h2 : euclideanSq live d ≤ q.2
            · simp [stepBest, hd, pickBest, hp, mergeAcc, h1, h2, not_lt.mpr h2]
            · have h3 : q.2 < euclideanSq live d := lt_of_not_le h2
              simp [stepBest, hd, pickBest, hp, mergeAcc, h1, h2, h3,
                lt_trans h3 h1]
          · have h1' : b ≤ euclideanSq live d := not_lt.mp h1
            by_cases h2 : euclideanSq live d ≤ q.2
            · have h3 : ¬ q.2 < b := not_lt.mpr (le_trans h1' h2)
              simp [stepBest, hd, pickBest, hp, mergeAcc, h1, h2, h3]
            · simp [stepBest, hd, pickBest, hp, mergeAcc, h1, h2]

lemma bestCandidate_eq_pickBest (live : Desc) (descOf : String → Option Desc)
    (l : List Candidate) :
    bestCandidate live descOf l = pickBest (pairsOf live descOf l) := by
  rw [bestCandidate, foldl_stepBest]
  rfl

lemma pickBest_isSome (p : String × ℚ) (rest : List (String × ℚ)) :
    (pickBest (p :: rest)).isSome = true := by
  simp only [pickBest]
  split
  · rfl
  · split <;> rfl

lemma pickBest_eq_none {ps : List (String × ℚ)} :
    pickBest ps = none ↔ ps = [] := by
  cases ps with
  | nil => simp [pickBest]
  | cons p rest =>
    constructor
    · intro h
      have := pickBest_isSome p rest
      rw [h] at this
      cases this
    · intro h
      cases h

lemma pickBest_mem : ∀ {ps : List (String × ℚ)} {p : String × ℚ},
    pickBest ps = some p → p ∈ ps
  | [], p, h => by cases h
  | x :: rest, p, h => by
    rcases hr : pickBest rest with _ | r
    · simp only [pickBest, hr] at h
      cases h
      exact List.mem_cons_self x rest
    · simp only [pickBest, hr] at h
      by_cases hle : x.2 ≤ r.2
      · rw [if_pos hle] at h
        cases h
        exact List.mem_cons_self x rest
      · rw [if_neg hle] at h
        cases h
        exact List.mem_cons_of_mem x (pickBest_mem hr)

lemma pickBest_le : ∀ {ps : List (String × ℚ)} {p : String × ℚ},
    pickBest ps = some p → ∀ q ∈ ps, p.2 ≤ q.2
  | [], p, h => by cases h
  | x :: rest, p, h => by
    rcases hr : pickBest rest with _ | r
    · have hrest : rest = [] := pickBest_eq_none.mp hr
      subst hrest
      simp only [pickBest] at h
      cases h
      intro q hq
      rcases List.mem_singleton.mp hq with rfl
      exact le_refl _
    · simp only [pickBest, hr] at h
      have ih := pickBest_le hr
      by_cases hle : x.2 ≤ r.2
      · rw [if_pos hle] at h
        cases h
        intro q hq
        rcases List.mem_cons.mp hq with rfl | hq'
        · exact le_refl _
        · exact le_trans hle (ih q hq')
      · rw [if_neg hle] at h
        cases h
        intro q hq
        rcases List.mem_cons.mp hq with rfl | hq'
        · exact le_of_lt (lt_of_not_le hle)
        · exact ih q hq'

lemma pickBest_first : ∀ {ps : List (String × ℚ)} {p : String × ℚ},
    pickBest ps = some p → ps.find? (fun q => q.2 == p.2) = some p
  | [], p, h => by cases h
  | x :: rest, p, h => by
    rcases hr : pickBest rest with _ | r
    · have hrest : rest = [] := pickBest_eq_none.mp hr
      subst hrest
      simp only [pickBest] at h
      cases h
      simp [List.find?]
    · simp only [pickBest, hr] at h
      have ih := pickBest_first hr
      by_cases hle : x.2 ≤ r.2
      · rw [if_pos hle] at h
        cases h
        simp [List.find?]
      · rw [if_neg hle] at h
        cases h
        have hne : (x.2 == p.2) = false := by
          simp only [beq_eq_false_iff_ne, ne_eq]
          intro hx
          exact hle (le_of_eq hx)
        rw [List.find?_cons_of_neg _ (by simp [hne]), ih]

lemma markAttendance_eq_resolved (env : Env) (live : Desc)
    (hu : env.users.isEmpty = false) (hs : env.shortlist.isEmpty = false)
    (hdesc : env.liveDesc = some live) :
    markAttendance env none =
      match resolvedIdentity env env.shortlist with
      | some (uid, rec) =>
          ledgerPhase env uid rec
            (simOfBest (bestCandidate live env.descOf env.shortlist))
      | none =>
          if env.logFails then .error (.apiError genericDetail)
          else
            .ok ({ ok := false, reason := some .NO_MATCH,
                   similarity :=
                     some (simOfBest (bestCandidate live env.descOf env.shortlist)) },
                 [{ result := .NO_MATCH,
                    similarity :=
                      some (simOfBest (bestCandidate live env.descOf env.shortlist)),
                    checkType := none, status := none, eventTime := none,
                    userLinked := false }]) := by
  simp only [markAttendance, hu, hs, applyHint, resolvedIdentity, hdesc,
    simOfBest, Bool.false_eq_true, if_false]
  rcases bestCandidate live env.descOf env.shortlist with _ | ⟨u, d⟩
  · simp
  · by_cases hth : d ≤ threshSq
    · simp only [hth, if_true, if_pos]
      rcases env.findEnrolled u with _ | r <;> simp
    · simp [hth]

/-- Claim C2: let m be the minimal (squared) Euclidean distance over the
candidates whose descriptor extraction succeeded (hbest says the candidate
loop produced (uid, m)).  Then (i) m is indeed that minimum, attained at
(uid, m), and uid is the *first* candidate attaining it in shortlist order
(ties resolve to the first); (ii) the verdict is a match exactly when the
distance is at most 0.6 — squared: m ≤ 9/25 — given that every shortlisted
userId resolves in the store; (iii) on a NO_MATCH verdict (distance above
threshold) the returned response and the logged event still carry the
similarity datum, i.e. the value max(0, 1 − √m). -/
theorem c2_matching (env : Env) (live : Desc) (uid : String) (m : ℚ)
    (hu : env.users.isEmpty = false) (hs : env.shortlist.isEmpty = false)
    (hdesc : env.liveDesc = some live) (hlog : env.logFails = false)
    (hfind : ∀ c ∈ env.shortlist, (env.findEnrolled c.userId).isSome = true)
    (hbest : bestCandidate live env.descOf env.shortlist = some (uid, m)) :
    ((uid, m) ∈ pairsOf live env.descOf env.shortlist
      ∧ (∀ q ∈ pairsOf live env.descOf env.shortlist, m ≤ q.2)
      ∧ (pairsOf live env.descOf env.shortlist).find? (fun q => q.2 == m)
          = some (uid, m))
    ∧ ((resolvedIdentity env env.shortlist).isSome = true ↔ m ≤ threshSq)
    ∧ (threshSq < m →
        markAttendance env none =
          .ok ({ ok := false, reason := some .NO_MATCH,
                 similarity := some (.fromDistSq m) },
               [{ result := .NO_MATCH, similarity := some (.fromDistSq m),
                  checkType := none, status := none, eventTime := none,
                  userLinked := false }])) := by
  have hpick : pickBest (pairsOf live env.descOf env.shortlist) = some (uid, m) := by
    rw [← bestCandidate_eq_pickBest]
    exact hbest
  have hmem := pickBest_mem hpick
  refine ⟨⟨hmem, pickBest_le hpick, pickBest_first hpick⟩, ?_, ?_⟩
  · -- verdict ↔ distance within threshold
    have hres : resolvedIdentity env env.shortlist =
        if m ≤ threshSq then (env.findEnrolled uid).map (fun r => (uid, r))
        else none := by
      simp [resolvedIdentity, hdesc, hbest]
    rw [hres]
    constructor
    · intro h
      by_contra hth
      rw [if_neg hth] at h
      cases h
    · intro hth
      rw [if_pos hth]
      rcases List.mem_filterMap.mp hmem with ⟨c, hc, hfc⟩
      rcases Option.map_eq_some'.mp hfc with ⟨d, _, hpair⟩
      have huid : c.userId = uid := congrArg Prod.fst hpair
      have := hfind c hc
      rw [huid] at this
      rcases henr : env.findEnrolled uid with _ | r
      · rw [henr] at this
        cases this
      · simp [henr]
  · -- NO_MATCH still reports the similarity
    intro hth
    have hres : resolvedIdentity env env.shortlist = none := by
      simp [resolvedIdentity, hdesc, hbest, not_le.mpr hth]
    rw [markAttendance_eq_resolved env live hu hs hdesc, hres]
    simp [hlog, hbest, simOfBest]

/-- Claim C2 witness: c2_matching applied to envC2w — the loop selects
candidate "a" at squared distance 1/4, the minimum, and the verdict is a
match since 1/4 ≤ 9/25. -/
theorem c2_matching_witness :
    ("a", (1 / 4 : ℚ)) ∈ pairsOf [0, 0] envC2w.descOf envC2w.shortlist
      ∧ (resolvedIdentity envC2w envC2w.shortlist).isSome = true := by
  have h := c2_matching envC2w [0, 0] "a" (1 / 4) rfl rfl rfl rfl
    (by intro c hc; fin_cases hc <;> simp [envC2w])
    (by simp [bestCandidate, stepBest, euclideanSq, envC2w]; norm_num)
  exact ⟨h.1.1, h.2.1.mpr (by norm_num [threshSq])⟩

/-- Claim C1, counterexample: with an empty enrolled population and a probe
from which no descriptor can be extracted, markAttendance returns NO_MATCH —
not the NO_FACE the claim requires "regardless of the enrolled candidate
population". -/
theorem c1_counterexample :
    reasonOf (markAttendance envC1 none) = some FailReason.NO_MATCH ∧
      some FailReason.NO_MATCH ≠ some FailReason.NO_FACE := by
  constructor
  · rfl
  · decide

/-- Claim C1, amended: when the descriptor oracle cannot extract a descriptor
from the probe, markAttendance (without hint) returns NO_FACE provided the
enrolled-user list and the shortlist are both nonempty; when either is empty
it instead returns NO_MATCH (the empty-population paths exit before the
oracle is consulted). -/
theorem c1_amended (env : Env) (hdesc : env.liveDesc = none)
    (hlog : env.logFails = false) :
    reasonOf (markAttendance env none) =
      some (if env.users.isEmpty || env.shortlist.isEmpty then
              FailReason.NO_MATCH
            else FailReason.NO_FACE) := by
  unfold markAttendance applyHint
  rcases hu : env.users.isEmpty with _ | _ <;>
    rcases hs : env.shortlist.isEmpty with _ | _ <;>
      simp [hu, hs, hdesc, hlog, reasonOf]

/-- Claim C1 witness: c1_amended applied to the concrete environment envC1w. -/
theorem c1_amended_witness :
    reasonOf (markAttendance envC1w none) = some FailReason.NO_FACE := by
  have h := c1_amended envC1w rfl rfl
  simpa using h

lemma markAttendance_eq_ledgerPhase (env : Env) (live : Desc) (uid : String)
    (rec : Enrolled)
    (hu : env.users.isEmpty = false) (hs : env.shortlist.isEmpty = false)
    (hdesc : env.liveDesc = some live)
    (hres : resolvedIdentity env env.shortlist = some (uid, rec)) :
    markAttendance env none =
      ledgerPhase env uid rec
        (simOfBest (bestCandidate live env.descOf env.shortlist)) := by
  rw [markAttendance_eq_resolved env live hu hs hdesc, hres]

lemma ledgerPhase_eq (env : Env) (uid : String) (rec : Enrolled)
    (simv : SimVal) (todays : List LogRec)
    (hlogs : env.todaysLogs = some todays) :
    ledgerPhase env uid rec simv =
      if (successesOf todays).length ≥ 2 then
        .ok ({ ok := false, reason := some .DAY_COMPLETED,
               similarity := some simv }, [])
      else if gapBlocked todays env.now then
        .ok ({ ok := false, reason := some .TOO_SOON,
               similarity := some simv }, [])
      else emitSuccess env uid rec simv (checkTypeOf todays) := by
  simp only [ledgerPhase, hlogs]
  by_cases h2 : (successesOf todays).length ≥ 2
  · simp [h2]
  · simp only [h2, if_false]
    rcases hl : (successesOf todays).getLast? with _ | last
    · simp [gapBlocked, hl]
    · by_cases hg :
        env.now - (((last.created).or last.eventTime).getD env.now) < 2 * 60 * 1000
      · simp [gapBlocked, hl, hg]
      · simp [gapBlocked, hl, hg]

/-- Claim C3: once the probe resolves to an identity and today's events were
read successfully, (i) if the store already holds ≥ 2 SUCCESS events today,
markAttendance returns DAY_COMPLETED and writes no event — regardless of any
cooldown, i.e. this guard takes precedence; (ii) otherwise, if the most
recent SUCCESS event today is less than MIN_GAP = 2 minutes before now
(gapBlocked), it returns TOO_SOON and writes no event. -/
theorem c3_policy (env : Env) (live : Desc) (uid : String) (rec : Enrolled)
    (todays : List LogRec)
    (hu : env.users.isEmpty = false) (hs : env.shortlist.isEmpty = false)
    (hdesc : env.liveDesc = some live)
    (hres : resolvedIdentity env env.shortlist = some (uid, rec))
    (hlogs : env.todaysLogs = some todays) :
    ((successesOf todays).length ≥ 2 →
      markAttendance env none =
        .ok ({ ok := false, reason := some FailReason.DAY_COMPLETED,
               similarity :=
                 some (simOfBest (bestCandidate live env.descOf env.shortlist)) },
             []))
    ∧ ((successesOf todays).length < 2 → gapBlocked todays env.now = true →
      markAttendance env none =
        .ok ({ ok := false, reason := some FailReason.TOO_SOON,
               similarity :=
                 some (simOfBest (bestCandidate live env.descOf env.shortlist)) },
             [])) := by
  rw [markAttendance_eq_ledgerPhase env live uid rec hu hs hdesc hres]
  rw [ledgerPhase_eq env uid rec _ todays hlogs]
  constructor
  · intro h2
    simp [h2]
  · intro h2 hg
    simp [not_le.mpr h2, hg]

lemma envLedger_resolves (todays : List LogRec) (now : Int) :
    resolvedIdentity (envLedger todays now) (envLedger todays now).shortlist
      = some ("u1", recW) := by
  simp [resolvedIdentity, bestCandidate, stepBest, euclideanSq, envLedger,
    threshSq, recW]
  norm_num

lemma emitSuccess_ok (env : Env) (uid : String) (rec : Enrolled)
    (simv : SimVal) (ct : CheckType) (hlog : env.logFails = false) :
    emitSuccess env uid rec simv ct =
      .ok ({ ok := true, reason := none, user_id := some uid,
             name := some rec.fullName, similarity := some simv,
             checkType := some ct, status := some (schedStatus env rec ct).1,
             lateMinutes := some (schedStatus env rec ct).2 },
           [{ result := .SUCCESS, similarity := some simv,
              checkType := some ct, status := some (schedStatus env rec ct).1,
              eventTime := some env.now, userLinked := true }]) := by
  simp [emitSuccess, hlog]

/-- Claim C3 witness: with two SUCCESS events already stored today,
c3_policy yields DAY_COMPLETED and no write; with one SUCCESS event 1 minute
ago, it yields TOO_SOON and no write. -/
theorem c3_policy_witness :
    markAttendance (envLedger [sLog 100 .IN, sLog 200 .OUT] 1000000) none =
      .ok ({ ok := false, reason := some FailReason.DAY_COMPLETED,
             similarity := some (SimVal.fromDistSq 0) }, [])
    ∧ markAttendance (envLedger [sLog 940000 .IN] 1000000) none =
      .ok ({ ok := false, reason := some FailReason.TOO_SOON,
             similarity := some (SimVal.fromDistSq 0) }, []) := by
  constructor
  · have h := (c3_policy (envLedger [sLog 100 .IN, sLog 200 .OUT] 1000000)
      [0, 0] "u1" recW [sLog 100 .IN, sLog 200 .OUT] rfl rfl rfl
      (envLedger_resolves _ _) rfl).1
      (by simp [successesOf, sLog])
    rw [h]
    norm_num [simOfBest, bestCandidate, stepBest, euclideanSq, envLedger]
  · have h := (c3_policy (envLedger [sLog 940000 .IN] 1000000)
      [0, 0] "u1" recW [sLog 940000 .IN] rfl rfl rfl
      (envLedger_resolves _ _) rfl).2
      (by simp [successesOf, sLog])
      (by simp [gapBlocked, successesOf, sLog, envLedger])
    rw [h]
    norm_num [simOfBest, bestCandidate, stepBest, euclideanSq, envLedger]

/-- Claim C4: on every reachable per-identity daily ledger, there are at
most two SUCCESS events, and the i-th SUCCESS event of the day carries
checkType IN exactly when i is even — so the first success is IN, the second
OUT, and two consecutive INs never occur. -/
theorem c4_alternation (logs : List LogRec) (h : ReachDay logs) :
    (successesOf logs).length ≤ 2 ∧
    ∀ i (hi : i < (successesOf logs).length),
      ((successesOf logs).get ⟨i, hi⟩).checkType =
        some (if i % 2 = 0 then CheckType.IN else CheckType.OUT) := by
  induction h with
  | nil =>
    constructor
    · simp [successesOf]
    · intro i hi
      simp [successesOf] at hi
  | step logs env live uid rec hu hs hdesc hres hlogs hlog hprev ih =>
    have hm := markAttendance_eq_ledgerPhase env live uid rec hu hs hdesc hres
    rw [ledgerPhase_eq env uid rec _ logs hlogs] at hm
    by_cases h2 : (successesOf logs).length ≥ 2
    · rw [if_pos h2] at hm
      simpa [hm, eventsOf] using ih
    · rw [if_neg h2] at hm
      by_cases hg : gapBlocked logs env.now
      · rw [if_pos hg] at hm
        simpa [hm, eventsOf] using ih
      · rw [if_neg hg, emitSuccess_ok env uid rec _ _ hlog] at hm
        have hsucc : successesOf (logs ++
            (eventsOf (markAttendance env none)).map (storedOf env.now)) =
            successesOf logs ++
              [storedOf env.now
                { result := .SUCCESS,
                  similarity :=
                    some (simOfBest (bestCandidate live env.descOf env.shortlist)),
                  checkType := some (checkTypeOf logs),
                  status := some (schedStatus env rec (checkTypeOf logs)).1,
                  eventTime := some env.now, userLinked := true }] := by
          rw [hm]
          simp [eventsOf, successesOf, List.filter_append, storedOf]
        rw [hsucc]
        have hlen : (successesOf logs).length ≤ 1 := by omega
        constructor
        · simp only [List.length_append, List.length_cons, List.length_nil]
          omega
        · intro i hi
          rw [List.get_eq_getElem]
          by_cases hilt : i < (successesOf logs).length
          · rw [List.getElem_append_left hilt]
            have h4 := ih.2 i hilt
            rw [List.get_eq_getElem] at h4
            exact h4
          · have hieq : i = (successesOf logs).length := by
              have h3 := hi
              simp only [List.length_append, List.length_cons,
                List.length_nil] at h3
              omega
            rw [List.getElem_concat_length _ _ _ hieq]
            simp only [storedOf, checkTypeOf]
            subst hieq
            by_cases hpar : (successesOf logs).length % 2 = 0
            · simp [hpar]
            · simp [hpar]

/-- Claim C4 witness: c4_alternation applied to the concrete one-step
reachable ledger — it holds one SUCCESS event and that event is an IN. -/
theorem c4_alternation_witness :
    (successesOf reachedOne).length ≤ 2 ∧
    (successesOf reachedOne).map (fun l => l.checkType) = [some CheckType.IN] := by
  have hreach : ReachDay reachedOne :=
    ReachDay.step [] (envLedger [] 1000000) [0, 0] "u1" recW rfl rfl rfl
      (envLedger_resolves [] 1000000) rfl rfl ReachDay.nil
  have h := c4_alternation reachedOne hreach
  refine ⟨h.1, ?_⟩
  have h1 := markAttendance_eq_ledgerPhase (envLedger [] 1000000) [0, 0]
    "u1" recW rfl rfl rfl (envLedger_resolves [] 1000000)
  rw [ledgerPhase_eq _ _ _ _ [] rfl] at h1
  rw [emitSuccess_ok _ _ _ _ _ rfl] at h1
  simp only [successesOf, List.filter_nil, List.length_nil, gapBlocked,
    List.getLast?_nil, ge_iff_le, Nat.le_zero, OfNat.ofNat_ne_zero,
    if_false, Bool.false_eq_true] at h1
  simp [reachedOne, h1, eventsOf, successesOf, storedOf, checkTypeOf]

/-- Claim C5: on an unblocked successful match (today's read succeeded, both
guards pass), markAttendance returns the success response whose status and
lateMinutes are schedStatus, and schedStatus realizes the specified policy:
for IN with a configured shiftStart, LATE with
lateMinutes = round((now − (scheduledStart + grace))/60000) exactly when
now > scheduledStart + grace, else ON_TIME; for OUT with a configured
shiftEnd, EARLY exactly when now < scheduledEnd, else ON_TIME; and ON_TIME
with lateMinutes 0 when the relevant schedule field is absent. -/
theorem c5_status (env : Env) (live : Desc) (uid : String) (rec : Enrolled)
    (todays : List LogRec)
    (hu : env.users.isEmpty = false) (hs : env.shortlist.isEmpty = false)
    (hdesc : env.liveDesc = some live)
    (hres : resolvedIdentity env env.shortlist = some (uid, rec))
    (hlogs : env.todaysLogs = some todays) (hlog : env.logFails = false)
    (h2 : (successesOf todays).length < 2)
    (hg : gapBlocked todays env.now = false) :
    (markAttendance env none =
      .ok ({ ok := true, reason := none, user_id := some uid,
             name := some rec.fullName,
             similarity :=
               some (simOfBest (bestCandidate live env.descOf env.shortlist)),
             checkType := some (checkTypeOf todays),
             status := some (schedStatus env rec (checkTypeOf todays)).1,
             lateMinutes := some (schedStatus env rec (checkTypeOf todays)).2 },
           [{ result := .SUCCESS,
              similarity :=
                some (simOfBest (bestCandidate live env.descOf env.shortlist)),
              checkType := some (checkTypeOf todays),
              status := some (schedStatus env rec (checkTypeOf todays)).1,
              eventTime := some env.now, userLinked := true }]))
    ∧ (∀ hm, rec.shiftStart = some hm →
        (env.now > toTodayMs env.dayStart hm + rec.graceMinutes.getD 0 * 60000 →
          schedStatus env rec .IN =
            (.LATE,
              jsRound (((env.now -
                (toTodayMs env.dayStart hm + rec.graceMinutes.getD 0 * 60000) :
                  Int) : ℚ) / 60000)))
        ∧ (¬ env.now >
              toTodayMs env.dayStart hm + rec.graceMinutes.getD 0 * 60000 →
            schedStatus env rec .IN = (.ON_TIME, 0)))
    ∧ (rec.shiftStart = none → schedStatus env rec .IN = (.ON_TIME, 0))
    ∧ (∀ hm, rec.shiftEnd = some hm →
        (env.now < toTodayMs env.dayStart hm →
          schedStatus env rec .OUT = (.EARLY, 0))
        ∧ (¬ env.now < toTodayMs env.dayStart hm →
            schedStatus env rec .OUT = (.ON_TIME, 0)))
    ∧ (rec.shiftEnd = none → schedStatus env rec .OUT = (.ON_TIME, 0)) := by
  refine ⟨?_, ?_, ?_, ?_, ?_⟩
  · rw [markAttendance_eq_ledgerPhase env live uid rec hu hs hdesc hres]
    rw [ledgerPhase_eq env uid rec _ todays hlogs]
    rw [if_neg (not_le.mpr h2)]
    rw [if_neg (by simp [hg])]
    exact emitSuccess_ok env uid rec _ _ hlog
  · intro hm hmm
    constructor
    · intro hlate
      simp [schedStatus, statusOf, hmm, hlate]
    · intro hontime
      simp [schedStatus, statusOf, hmm, hontime]
  · intro hnone
    simp [schedStatus, statusOf, hnone]
  · intro hm hmm
    constructor
    · intro hearly
      simp [schedStatus, statusOf, hmm, hearly]
    · intro hlateout
      simp [schedStatus, statusOf, hmm, hlateout]
  · intro hnone
    simp [schedStatus, statusOf, hnone]

/-- Claim C5 witness: with shiftStart 09:00 and graceMinutes 10 (recW), an
IN at 09:09 is ON_TIME with lateMinutes 0, and an IN at 09:11 is LATE with
lateMinutes 1 (times of day over dayStart = 0). -/
theorem c5_status_witness :
    (statusOfOutcome (markAttendance (envLedger [] 32940000) none) =
        some Status.ON_TIME
      ∧ lateOfOutcome (markAttendance (envLedger [] 32940000) none) = some 0)
    ∧ (statusOfOutcome (markAttendance (envLedger [] 33060000) none) =
        some Status.LATE
      ∧ lateOfOutcome (markAttendance (envLedger [] 33060000) none) = some 1) := by
  constructor
  · have h := c5_status (envLedger [] 32940000) [0, 0] "u1" recW [] rfl rfl rfl
      (envLedger_resolves _ _) rfl rfl (by simp [successesOf])
      (by simp [gapBlocked, successesOf])
    have hct : checkTypeOf ([] : List LogRec) = CheckType.IN := by
      simp [checkTypeOf, successesOf]
    have hval := (h.2.1 (9, 0) rfl).2 (by norm_num [toTodayMs, recW, envLedger])
    rw [h.1]
    simp [statusOfOutcome, lateOfOutcome, hct, hval]
  · have h := c5_status (envLedger [] 33060000) [0, 0] "u1" recW [] rfl rfl rfl
      (envLedger_resolves _ _) rfl rfl (by simp [successesOf])
      (by simp [gapBlocked, successesOf])
    have hct : checkTypeOf ([] : List LogRec) = CheckType.IN := by
      simp [checkTypeOf, successesOf]
    have hval : schedStatus (envLedger [] 33060000) recW CheckType.IN =
        (Status.LATE, 1) := by
      have h1 := (h.2.1 (9, 0) rfl).1 (by norm_num [toTodayMs, recW, envLedger])
      rw [h1]
      norm_num [toTodayMs, recW, envLedger, jsRound]
    rw [h.1]
    simp [statusOfOutcome, lateOfOutcome, hct, hval]

lemma envC6_resolves (e : Env) (he : e.descOf = (envLedger [] 1000000).descOf)
    (hf : e.findEnrolled = (envLedger [] 1000000).findEnrolled)
    (hl : e.liveDesc = some [0, 0])
    (hs : e.shortlist = (envLedger [] 1000000).shortlist) :
    resolvedIdentity e e.shortlist = some ("u1", recW) := by
  simp only [resolvedIdentity, hl, he, hf, hs]
  simp [bestCandidate, stepBest, euclideanSq, envLedger, threshSq, recW]
  norm_num

/-- Claim C6, counterexample: a transient infrastructure failure — the read
of today's events throwing (todaysLogs = none) — is not propagated: the
attempt still completes with a SUCCESS outcome (ok = true), contradicting
"never silently converted into a SUCCESS … outcome". -/
theorem c6_counterexample :
    envC6a.todaysLogs = none ∧ okOf (markAttendance envC6a none) = true := by
  constructor
  · rfl
  · have hres := envC6_resolves envC6a rfl rfl rfl rfl
    have hm := markAttendance_eq_ledgerPhase envC6a [0, 0] "u1" recW
      rfl rfl rfl hres
    rw [hm]
    simp only [ledgerPhase]
    rw [emitSuccess_ok _ _ _ _ _ rfl]
    rfl

/-- Claim C6, amended: (i) a throwing today's-events read is swallowed: the
attempt proceeds with checkType defaulted to IN and, when the write
succeeds, yields a SUCCESS outcome; (ii) a throwing event write inside the
recognition block is propagated without internal retry, but only as the
generic ApiError with the fixed message "Face recognition failed. Please
try again." — carrying no operation name or underlying cause; (iii) a
throwing event write on the early empty-population path propagates as the
raw store error. -/
theorem c6_faults :
    (∀ (env : Env) (live : Desc) (uid : String) (rec : Enrolled),
      env.users.isEmpty = false → env.shortlist.isEmpty = false →
      env.liveDesc = some live →
      resolvedIdentity env env.shortlist = some (uid, rec) →
      env.todaysLogs = none → env.logFails = false →
      markAttendance env none =
        .ok ({ ok := true, reason := none, user_id := some uid,
               name := some rec.fullName,
               similarity :=
                 some (simOfBest (bestCandidate live env.descOf env.shortlist)),
               checkType := some CheckType.IN,
               status := some (schedStatus env rec .IN).1,
               lateMinutes := some (schedStatus env rec .IN).2 },
             [{ result := .SUCCESS,
                similarity :=
                  some (simOfBest (bestCandidate live env.descOf env.shortlist)),
                checkType := some CheckType.IN,
                status := some (schedStatus env rec .IN).1,
                eventTime := some env.now, userLinked := true }]))
    ∧ (∀ (env : Env) (live : Desc) (uid : String) (rec : Enrolled),
        env.users.isEmpty = false → env.shortlist.isEmpty = false →
        env.liveDesc = some live →
        resolvedIdentity env env.shortlist = some (uid, rec) →
        env.todaysLogs = none → env.logFails = true →
        markAttendance env none = .error (.apiError genericDetail))
    ∧ (∀ env : Env, env.users.isEmpty = true → env.logFails = true →
        markAttendance env none = .error .storeError) := by
  refine ⟨?_, ?_, ?_⟩
  · intro env live uid rec hu hs hdesc hres hnone hlog
    rw [markAttendance_eq_ledgerPhase env live uid rec hu hs hdesc hres]
    simp only [ledgerPhase, hnone]
    exact emitSuccess_ok env uid rec _ _ hlog
  · intro env live uid rec hu hs hdesc hres hnone hlog
    rw [markAttendance_eq_ledgerPhase env live uid rec hu hs hdesc hres]
    simp only [ledgerPhase, hnone]
    simp [emitSuccess, hlog]
  · intro env hu hlog
    simp [markAttendance, hu, hlog]

/-- Claim C6 witness: c6_faults applied to the concrete environments — the
swallowed read failure yields ok = true; the failing write yields the
generic ApiError. -/
theorem c6_faults_witness :
    okOf (markAttendance envC6a none) = true ∧
    markAttendance envC6b none = .error (.apiError genericDetail) := by
  constructor
  · have h := c6_faults.1 envC6a [0, 0] "u1" recW rfl rfl rfl
      (envC6_resolves envC6a rfl rfl rfl rfl) rfl rfl
    rw [h]
    rfl
  · exact c6_faults.2.1 envC6b [0, 0] "u1" recW rfl rfl rfl
      (envC6_resolves envC6b rfl rfl rfl rfl) rfl rfl

/-- Claim C7, counterexample: caller A starts the first build; caller B
enters while it is in flight and receives the stale empty cache, whereas
A's build returns one candidate — B does *not* receive the same result as
the in-flight build. -/
theorem c7_counterexample :
    (buildEnter indexState0).2 = none
    ∧ (buildEnter (buildEnter indexState0).1).2 = some []
    ∧ (buildFinish (buildEnter indexState0).1 [recW]).2 =
        [{ recId := "r1", userId := "u1", fullName := "User One",
           imageUrl := "url1", sig := none }]
    ∧ (buildEnter (buildEnter indexState0).1).2 ≠
        some (buildFinish (buildEnter indexState0).1 [recW]).2 := by
  refine ⟨rfl, rfl, rfl, ?_⟩
  decide

/-- Claim C7, amended: while a build is in flight, a concurrent
buildCandidateIndex call starts no second build — the state is unchanged
and the call returns immediately — but the result it receives is the
previously cached candidate list (empty when no cache), which need not
equal the in-flight build's result. -/
theorem c7_amended (s : IndexState) (h : s.building = true) :
    buildEnter s = (s, some (s.cache.getD [])) := by
  simp [buildEnter, h]

/-- Claim C7 witness: c7_amended applied to the in-flight state with no
cache — the concurrent caller receives the empty list and the state is
untouched. -/
theorem c7_amended_witness :
    buildEnter { cache := none, building := true } =
      ({ cache := none, building := true }, some []) := by
  have h := c7_amended { cache := none, building := true } rfl
  simpa using h

lemma rankedOf_perm (querySig : Sig) (sigOf : String → Option Sig)
    (cache : List Candidate) :
    (rankedOf querySig sigOf cache).Perm
      ((ensureSigs sigOf cache).map (fun c => (c, scoreOf querySig c))) :=
  List.perm_insertionSort _ _

lemma rankedOf_sorted (querySig : Sig) (sigOf : String → Option Sig)
    (cache : List Candidate) :
    List.Pairwise (fun a b : Candidate × ℚ => b.2 ≤ a.2)
      (rankedOf querySig sigOf cache) := by
  haveI : IsTotal (Candidate × ℚ) (fun a b => b.2 ≤ a.2) :=
    ⟨fun a b => le_total b.2 a.2⟩
  haveI : IsTrans (Candidate × ℚ) (fun a b => b.2 ≤ a.2) :=
    ⟨fun a b c hab hbc => le_trans hbc hab⟩
  exact List.sorted_insertionSort _ _

lemma rankedOf_length (querySig : Sig) (sigOf : String → Option Sig)
    (cache : List Candidate) :
    (rankedOf querySig sigOf cache).length = cache.length := by
  rw [rankedOf, List.length_insertionSort, List.length_map, ensureSigs,
    List.length_map]

lemma rankedOf_score (querySig : Sig) (sigOf : String → Option Sig)
    (cache : List Candidate) :
    ∀ x ∈ rankedOf querySig sigOf cache, x.2 = scoreOf querySig x.1 := by
  intro x hx
  have hx' := (rankedOf_perm querySig sigOf cache).mem_iff.mp hx
  rcases List.mem_map.mp hx' with ⟨c, _, rfl⟩
  rfl

lemma rankedOf_mem_ensured (querySig : Sig) (sigOf : String → Option Sig)
    (cache : List Candidate) :
    ∀ x ∈ rankedOf querySig sigOf cache, x.1 ∈ ensureSigs sigOf cache := by
  intro x hx
  have hx' := (rankedOf_perm querySig sigOf cache).mem_iff.mp hx
  rcases List.mem_map.mp hx' with ⟨c, hc, rfl⟩
  exact hc

lemma countP_lt_length_of_mem_false {α : Type _} (p : α → Bool) :
    ∀ {l : List α} {a : α}, a ∈ l → p a = false →
      List.countP p l < l.length
  | b :: t, a, ha, hpa => by
    rcases List.mem_cons.mp ha with rfl | hat
    · rw [List.countP_cons, hpa]
      simp only [Bool.false_eq_true, if_false, List.length_cons]
      have := List.countP_le_length p (l := t)
      omega
    · rw [List.countP_cons]
      have := countP_lt_length_of_mem_false p hat hpa
      simp only [List.length_cons]
      split <;> omega

/-- Claim C8: for every cached population and every k, shortlistByBlob
returns exactly min(k, population size) candidates (the empty list — not an
error — when the population is empty); the returned candidates come from
the signature-ensured population (each either has a signature or its
provider failed); their scores are non-increasing along the returned list;
and they are the top min(k, n): fewer than k candidates of the ensured
population score strictly higher than any returned one. -/
theorem c8_shortlist (cache : List Candidate) (querySig : Sig)
    (sigOf : String → Option Sig) (k : Nat) :
    (cache = [] → shortlistByBlob cache querySig sigOf k = [])
    ∧ (shortlistByBlob cache querySig sigOf k).length = min k cache.length
    ∧ List.Pairwise (fun a b => scoreOf querySig b ≤ scoreOf querySig a)
        (shortlistByBlob cache querySig sigOf k)
    ∧ (∀ c ∈ shortlistByBlob cache querySig sigOf k, c ∈ ensureSigs sigOf cache)
    ∧ (∀ c ∈ shortlistByBlob cache querySig sigOf k,
        List.countP (fun d => decide (scoreOf querySig c < scoreOf querySig d))
          (ensureSigs sigOf cache) < k)
    ∧ (∀ c ∈ ensureSigs sigOf cache,
        c.sig.isSome = true ∨ sigOf c.imageUrl = none) := by
  have hensured : ∀ c ∈ ensureSigs sigOf cache,
      c.sig.isSome = true ∨ sigOf c.imageUrl = none := by
    intro c hc
    rcases List.mem_map.mp hc with ⟨c0, _, rfl⟩
    rcases hs0 : c0.sig with _ | s
    · rcases hp : sigOf c0.imageUrl with _ | s'
      · right
        simp [hs0, hp]
      · left
        simp [hs0, hp]
    · left
      simp [hs0]
  by_cases hcache : cache = []
  · subst hcache
    refine ⟨fun _ => rfl, by simp [shortlistByBlob], by simp [shortlistByBlob],
      ?_, ?_, hensured⟩
    · intro c hc
      simp [shortlistByBlob] at hc
    · intro c hc
      simp [shortlistByBlob] at hc
  · have hie : cache.isEmpty = false := by
      simpa [List.isEmpty_iff] using hcache
    have hshort : shortlistByBlob cache querySig sigOf k
        = ((rankedOf querySig sigOf cache).take
            (min k (rankedOf querySig sigOf cache).length)).map (fun x => x.1) := by
      simp [shortlistByBlob, hie]
    have hlen := rankedOf_length querySig sigOf cache
    have hsorted := rankedOf_sorted querySig sigOf cache
    have htk : List.Pairwise (fun a b : Candidate × ℚ => b.2 ≤ a.2)
        ((rankedOf querySig sigOf cache).take
          (min k (rankedOf querySig sigOf cache).length)) :=
      List.Pairwise.sublist (List.take_sublist _ _) hsorted
    have hmemtk : ∀ x ∈ (rankedOf querySig sigOf cache).take
        (min k (rankedOf querySig sigOf cache).length),
        x ∈ rankedOf querySig sigOf cache :=
      fun x hx => (List.take_sublist _ _).mem hx
    refine ⟨fun h => absurd h hcache, ?_, ?_, ?_, ?_, hensured⟩
    · -- length
      rw [hshort, List.length_map, List.length_take, hlen]
      omega
    · -- non-increasing scores
      rw [hshort, List.pairwise_map]
      refine htk.imp_of_mem ?_
      intro a b ha hb hle
      have hsa := rankedOf_score querySig sigOf cache a (hmemtk a ha)
      have hsb := rankedOf_score querySig sigOf cache b (hmemtk b hb)
      rw [← hsa, ← hsb]
      exact hle
    · -- membership in the ensured population
      intro c hc
      rw [hshort] at hc
      rcases List.mem_map.mp hc with ⟨x, hx, rfl⟩
      exact rankedOf_mem_ensured querySig sigOf cache x (hmemtk x hx)
    · -- top-k: fewer than k strictly better candidates
      intro c hc
      rw [hshort] at hc
      rcases List.mem_map.mp hc with ⟨x, hx, rfl⟩
      have hxmem := hmemtk x hx
      have hxscore := rankedOf_score querySig sigOf cache x hxmem
      -- countP over the ensured population = countP over the sorted list
      have hcount1 : List.countP
          (fun d => decide (scoreOf querySig x.1 < scoreOf querySig d))
          (ensureSigs sigOf cache)
          = List.countP (fun y => decide (scoreOf querySig x.1 < y.2))
              (rankedOf querySig sigOf cache) := by
        have hmap := List.countP_map
          (fun y : Candidate × ℚ => decide (scoreOf querySig x.1 < y.2))
          (fun c => (c, scoreOf querySig c)) (ensureSigs sigOf cache)
        have hpm := (rankedOf_perm querySig sigOf cache).countP_eq
          (fun y : Candidate × ℚ => decide (scoreOf querySig x.1 < y.2))
        rw [hpm, hmap]
        rfl
      rw [hcount1]
      -- split the sorted list at position min k n
      have hsplit := List.take_append_drop
        (min k (rankedOf querySig sigOf cache).length)
        (rankedOf querySig sigOf cache)
      have hcount2 : List.countP (fun y => decide (scoreOf querySig x.1 < y.2))
          (rankedOf querySig sigOf cache)
          = List.countP (fun y => decide (scoreOf querySig x.1 < y.2))
              ((rankedOf querySig sigOf cache).take
                (min k (rankedOf querySig sigOf cache).length))
            + List.countP (fun y => decide (scoreOf querySig x.1 < y.2))
                ((rankedOf querySig sigOf cache).drop
                  (min k (rankedOf querySig sigOf cache).length)) := by
        conv_lhs => rw [← hsplit]
        exact List.countP_append _ _ _
      rw [hcount2]
      -- the dropped part counts 0: all dropped score ≤ x's score
      have hcross : ∀ a ∈ (rankedOf querySig sigOf cache).take
            (min k (rankedOf querySig sigOf cache).length),
          ∀ b ∈ (rankedOf querySig sigOf cache).drop
            (min k (rankedOf querySig sigOf cache).length),
          b.2 ≤ a.2 := by
        have h := hsorted
        rw [← hsplit] at h
        exact (List.pairwise_append.mp h).2.2
      have hdrop : List.countP (fun y => decide (scoreOf querySig x.1 < y.2))
          ((rankedOf querySig sigOf cache).drop
            (min k (rankedOf querySig sigOf cache).length)) = 0 := by
        rw [List.countP_eq_zero]
        intro y hy
        have hle := hcross x hx y hy
        simp only [decide_eq_true_eq]
        rw [← hxscore]
        exact not_lt.mpr hle
      rw [hdrop]
      -- the taken part counts < its length, since x itself is not counted
      have hxfalse : (fun y : Candidate × ℚ =>
          decide (scoreOf querySig x.1 < y.2)) x = false := by
        simp only [decide_eq_false_iff_not]
        rw [← hxscore]
        exact lt_irrefl _
      have htklen : ((rankedOf querySig sigOf cache).take
          (min k (rankedOf querySig sigOf cache).length)).length
          = min k (rankedOf querySig sigOf cache).length := by
        rw [List.length_take]
        omega
      have htake : List.countP (fun y => decide (scoreOf querySig x.1 < y.2))
          ((rankedOf querySig sigOf cache).take
            (min k (rankedOf querySig sigOf cache).length))
          < min k (rankedOf querySig sigOf cache).length := by
        have h5 := countP_lt_length_of_mem_false
          (fun y : Candidate × ℚ => decide (scoreOf querySig x.1 < y.2))
          hx hxfalse
        rw [htklen] at h5
        exact h5
      have hmk : min k (rankedOf querySig sigOf cache).length ≤ k :=
        Nat.min_le_left _ _
      omega

/-- Claim C8 witness: c8_shortlist applied to a two-candidate population
with k = 1 — exactly min 1 2 = 1 candidate is returned, and it is the
higher-scoring one (candA, similarity 1 vs 0). -/
theorem c8_shortlist_witness :
    (shortlistByBlob [candA, candB] [1, 0] sigOfC8 1).length = min 1 2
    ∧ shortlistByBlob [candA, candB] [1, 0] sigOfC8 1 = [candA] := by
  constructor
  · have h := (c8_shortlist [candA, candB] [1, 0] sigOfC8 1).2.1
    simpa using h
  · simp [shortlistByBlob, rankedOf, ensureSigs, scoreOf, cosineSim, candA,
      candB, sigOfC8]

lemma fastPath_subsumed (s : DetState) (sig : Sig)
    (he : enteringAfter s = true) (hs : simOf s sig ≥ 0.999) :
    countAfter s sig ≥ neededOf s := by
  have hneed : neededOf s = 1 := by simp [neededOf, he]
  rw [hneed]
  rcases hp : s.prevSig with _ | p
  · simp only [simOf, hp] at hs
    norm_num at hs
  · simp only [simOf, hp] at hs
    simp only [countAfter, hp]
    rw [if_neg (not_lt.mpr (by linarith)), if_pos (by linarith)]
    omega

lemma tick_cooldown (s : DetState) (now : Int) (frame : Option Sig)
    (h : now - s.lastAutoAt < 2500) : tick s now frame = (s, false) := by
  simp [tick, h]

/-- Claim C9: (i) outside the cooldown window, a frame triggers a probe
capture exactly when it has presence and either (entering holds and the
cosine similarity to the previous signature exceeds the fast-path threshold
0.999) or the updated stableCount reaches the required frame count (1 while
entering, 4 in steady state); (ii) a tick inside the cooldown window leaves
the state unchanged and never triggers, regardless of frame stability;
(iii) a trigger stamps lastAutoAt with the trigger time, and every
subsequent run of ticks that stays within 2500 ms of it triggers nothing
and changes nothing. -/
theorem c9_trigger :
    (∀ (s : DetState) (now : Int) (sig : Sig),
      ¬(now - s.lastAutoAt < 2500) →
      ((tick s now (some sig)).2 = true ↔
        hasPresence sig = true ∧
          ((enteringAfter s = true ∧ simOf s sig > 0.999)
            ∨ countAfter s sig ≥ neededOf s)))
    ∧ (∀ (s : DetState) (now : Int) (frame : Option Sig),
        now - s.lastAutoAt < 2500 → tick s now frame = (s, false))
    ∧ (∀ (s : DetState) (now : Int) (frame : Option Sig) (s' : DetState),
        tick s now frame = (s', true) → s'.lastAutoAt = now)
    ∧ (∀ (s : DetState) (frames : List (Int × Option Sig)),
        (∀ f ∈ frames, f.1 - s.lastAutoAt < 2500) →
        runTicks s frames = (s, false)) := by
  refine ⟨?_, tick_cooldown, ?_, ?_⟩
  · intro s now sig hcd
    simp only [tick, if_neg hcd]
    by_cases hp : hasPresence sig = true
    · rw [if_neg (by simp [hp])]
      constructor
      · intro h
        refine ⟨hp, ?_⟩
        by_cases ht : triggerCond s sig = true
        · have ht' := ht
          rw [triggerCond] at ht'
          rcases Bool.or_eq_true_iff.mp ht' with hl | hr
          · rcases Bool.and_eq_true_iff.mp hl with ⟨he, hsim⟩
            have hsim' : simOf s sig ≥ 0.999 := of_decide_eq_true hsim
            exact Or.inr (fastPath_subsumed s sig he hsim')
          · exact Or.inr (of_decide_eq_true hr)
        · rw [if_neg ht] at h
          cases h
      · intro h
        have ht : triggerCond s sig = true := by
          rw [triggerCond]
          rcases h.2 with ⟨he, hsim⟩ | hcnt
          · have hc : countAfter s sig ≥ neededOf s :=
              fastPath_subsumed s sig he (le_of_lt hsim)
            simp [hc]
          · simp [hcnt]
        rw [if_pos ht]
    · have hp' : hasPresence sig = false := by
        rcases hb : hasPresence sig with _ | _
        · rfl
        · exact absurd hb hp
      rw [if_pos hp']
      constructor
      · intro h
        simp at h
      · intro h
        exact absurd h.1 hp
  · intro s now frame s' h
    simp only [tick] at h
    by_cases hcd : now - s.lastAutoAt < 2500
    · rw [if_pos hcd] at h
      cases h
    · rw [if_neg hcd] at h
      rcases frame with _ | sig
      · cases h
      · simp only at h
        by_cases hp : hasPresence sig = false
        · rw [if_pos hp] at h
          cases h
        · rw [if_neg hp] at h
          by_cases ht : triggerCond s sig = true
          · rw [if_pos ht] at h
            cases h
            rfl
          · rw [if_neg ht] at h
            cases h
  · intro s frames hall
    induction frames with
    | nil => rfl
    | cons f fs ih =>
      have h1 : tick s f.1 f.2 = (s, false) :=
        tick_cooldown s f.1 f.2 (hall f (List.mem_cons_self f fs))
      have h2 : ∀ g ∈ fs, g.1 - s.lastAutoAt < 2500 :=
        fun g hg => hall g (List.mem_cons_of_mem f hg)
      simp only [runTicks, List.foldl_cons, h1] at *
      exact ih h2

/-- Claim C9 witness: a freshly entering, perfectly similar frame outside
the cooldown triggers; the same frame 1 second after a trigger does not. -/
theorem c9_trigger_witness :
    (tick { prevSig := some [1, 0], stableCount := 0, lastAutoAt := 0,
            prevPresence := false, entering := false }
          10000 (some [1, 0])).2 = true
    ∧ tick { prevSig := some [1, 0], stableCount := 0, lastAutoAt := 10000,
             prevPresence := false, entering := false }
          11000 (some [1, 0]) =
        ({ prevSig := some [1, 0], stableCount := 0, lastAutoAt := 10000,
           prevPresence := false, entering := false }, false) := by
  constructor
  · refine (c9_trigger.1 _ 10000 [1, 0] (by decide)).mpr ⟨?_, Or.inl ⟨rfl, ?_⟩⟩
    · simp [hasPresence, varianceOf]
      norm_num
    · simp [simOf, cosineSim]
      norm_num
  · exact c9_trigger.2.1 _ 11000 (some [1, 0]) (by decide)

lemma tick_keeps_entering (s : DetState) (now : Int) (frame : Option Sig)
    (hs : s.entering = true)
    (hp : ∀ sig, frame = some sig → hasPresence sig = true) :
    (tick s now frame).1.entering = true := by
  simp only [tick]
  by_cases hcd : now - s.lastAutoAt < 2500
  · rw [if_pos hcd]
    exact hs
  · rw [if_neg hcd]
    rcases frame with _ | sig
    · exact hs
    · simp only
      have hpres := hp sig rfl
      rw [if_neg (by simp [hpres])]
      have he : enteringAfter s = true := by
        rcases hpp : s.prevPresence with _ | _ <;> simp [enteringAfter, hpp, hs]
      by_cases ht : triggerCond s sig = true
      · rw [if_pos ht]
        exact he
      · rw [if_neg ht]
        exact he

/-- Claim C10: (i) once entering is true it is cleared only by a processed
low-variance (no-presence) frame; (ii) while entering, the required stable
frame count is 1 — the steady-state requirement 4 never applies; (iii) over
any run whose frames all carry presence (when they carry an image at all),
entering stays true throughout, triggers or not. -/
theorem c10_entering :
    (∀ (s : DetState) (now : Int) (frame : Option Sig),
      s.entering = true → (tick s now frame).1.entering = false →
      ∃ sig, frame = some sig ∧ ¬(now - s.lastAutoAt < 2500) ∧
        hasPresence sig = false)
    ∧ (∀ s : DetState, s.entering = true → neededOf s = 1)
    ∧ (∀ (s : DetState) (frames : List (Int × Option Sig)),
        s.entering = true →
        (∀ f ∈ frames, ∀ sig, f.2 = some sig → hasPresence sig = true) →
        (runTicks s frames).1.entering = true) := by
  refine ⟨?_, ?_, ?_⟩
  · intro s now frame hs hcleared
    by_cases hcd : now - s.lastAutoAt < 2500
    · exfalso
      rw [tick_cooldown s now frame hcd] at hcleared
      have hse : s.entering = false := hcleared
      rw [hs] at hse
      cases hse
    · rcases frame with _ | sig
      · exfalso
        have hskip : tick s now none = (s, false) := by
          simp [tick, hcd]
        rw [hskip] at hcleared
        have hse : s.entering = false := hcleared
        rw [hs] at hse
        cases hse
      · by_cases hpres : hasPresence sig = true
        · exfalso
          have hkeep := tick_keeps_entering s now (some sig) hs
            (fun sg hsg => by cases hsg; exact hpres)
          rw [hkeep] at hcleared
          cases hcleared
        · refine ⟨sig, rfl, hcd, ?_⟩
          rcases hb : hasPresence sig with _ | _
          · rfl
          · exact absurd hb hpres
  · intro s hs
    have he : enteringAfter s = true := by
      rcases hpp : s.prevPresence with _ | _ <;> simp [enteringAfter, hpp, hs]
    simp [neededOf, he]
  · intro s frames hs hall
    suffices hgen : ∀ (fs : List (Int × Option Sig)) (acc : DetState × Bool),
        acc.1.entering = true →
        (∀ f ∈ fs, ∀ sig, f.2 = some sig → hasPresence sig = true) →
        (fs.foldl (fun acc f =>
          ((tick acc.1 f.1 f.2).1, acc.2 || (tick acc.1 f.1 f.2).2)) acc).1.entering
          = true by
      exact hgen frames (s, false) hs hall
    intro fs
    induction fs with
    | nil =>
      intro acc hacc _
      exact hacc
    | cons f fs ih =>
      intro acc hacc hall'
      rw [List.foldl_cons]
      apply ih
      · exact tick_keeps_entering acc.1 f.1 f.2 hacc
          (hall' f (List.mem_cons_self f fs))
      · exact fun g hg => hall' g (List.mem_cons_of_mem f hg)

/-- Claim C10 witness: from an entering state, a run of one similar
presence frame (which triggers) followed by a skipped frame keeps entering
true, and the required count while entering is 1. -/
theorem c10_entering_witness :
    (runTicks { prevSig := some [1, 0], stableCount := 0, lastAutoAt := 0,
                prevPresence := true, entering := true }
        [(10000, some [1, 0]), (10500, none)]).1.entering = true
    ∧ neededOf { prevSig := some [1, 0], stableCount := 0, lastAutoAt := 0,
                 prevPresence := true, entering := true } = 1 := by
  constructor
  · refine c10_entering.2.2 _ _ rfl ?_
    intro f hf sig hsig
    fin_cases hf
    · cases hsig
      simp [hasPresence, varianceOf]
      norm_num
    · cases hsig
  · exact c10_entering.2.1 _ rfl

end FaceAttendance
